import Mathlib

/-!
Formal model of the `privacy_screen` repository's core pipeline:
the face detector's overlap suppression (`src/detector.py`), the face
embedder and similarity metric (`src/embedder.py`), the face verifier
(`src/verify.py`) and the privacy decision engine (`src/decision.py`).

Python float arithmetic is modelled exactly: the detector and the decision
engine only add, multiply, divide and compare, so they are embedded over ℚ;
the embedder takes square roots (`np.linalg.norm`), so it is embedded over ℝ.
Division by zero yields 0 in the model; every modelled code path only divides
by a quantity the surrounding code keeps nonzero, except where noted.
-/

namespace PrivacyScreen

/-- `utils.BoundingBox`: normalized box with four float fields. -/
structure BoundingBox where
  x_min : ℚ
  y_min : ℚ
  x_max : ℚ
  y_max : ℚ
deriving DecidableEq, Repr

/-- `BoundingBox.width`: `x_max - x_min`. -/
def BoundingBox.width (b : BoundingBox) : ℚ := b.x_max - b.x_min

/-- `BoundingBox.height`: `y_max - y_min`. -/
def BoundingBox.height (b : BoundingBox) : ℚ := b.y_max - b.y_min

/-- `BoundingBox.area`: `width * height`. -/
def BoundingBox.area (b : BoundingBox) : ℚ := b.width * b.height

/-- One entry of the `all_detections` list built in `FaceDetector.detect`
(detector.py lines 110-115): a candidate box with its confidence.  The
`area` and `cascade` dict keys are never read by `_nms` or `_compute_iou`,
so they are omitted from the model. -/
structure Detection where
  box : BoundingBox
  confidence : ℚ
deriving DecidableEq, Repr

/-- `FaceDetector._compute_iou` (detector.py lines 173-198): intersection
over union of two boxes; zero or negative overlap extents yield 0, and a
nonpositive union area also yields 0.  The model computes in exact
rationals; the concrete suppression inputs used in theorems below are
dyadic, so that float64 evaluates every extent, product and sum exactly
and the one inexact operation (the final division) rounds to the float
threshold exactly when the rational quotient equals the rational
threshold — the program and the model then agree on every comparison. -/
def computeIou (box1 box2 : BoundingBox) : ℚ :=
  let inter_x_min := max box1.x_min box2.x_min
  let inter_y_min := max box1.y_min box2.y_min
  let inter_x_max := min box1.x_max box2.x_max
  let inter_y_max := min box1.y_max box2.y_max
  if inter_x_max ≤ inter_x_min ∨ inter_y_max ≤ inter_y_min then 0
  else
    let inter_area := (inter_x_max - inter_x_min) * (inter_y_max - inter_y_min)
    let box1_area := (box1.x_max - box1.x_min) * (box1.y_max - box1.y_min)
    let box2_area := (box2.x_max - box2.x_min) * (box2.y_max - box2.y_min)
    let union_area := box1_area + box2_area - inter_area
    if union_area > 0 then inter_area / union_area else 0

/-- Insert a detection into a confidence-descending list, after every
element of greater-or-equal confidence (stable order for ties). -/
def insertByConf (x : Detection) : List Detection → List Detection
  | [] => [x]
  | y :: ys => if x.confidence > y.confidence then x :: y :: ys else y :: insertByConf x ys

/-- Model of `sorted(detections, key=lambda x: x['confidence'], reverse=True)`
(detector.py line 156): a stable sort, descending by confidence. -/
def sortByConfDesc (l : List Detection) : List Detection :=
  l.foldl (fun acc x => insertByConf x acc) []

/-- One iteration of the greedy keep loop in `FaceDetector._nms`
(detector.py lines 159-169): the current candidate is appended to `kept`
exactly when its IoU against every already-kept detection is not above the
threshold. -/
def nmsStep (iou_threshold : ℚ) (kept : List Detection) (current : Detection) :
    List Detection :=
  if kept.all (fun kept_det => !(computeIou current.box kept_det.box > iou_threshold)) then
    kept ++ [current]
  else
    kept

/-- `FaceDetector._nms` (detector.py lines 140-171): sort candidates by
descending confidence, then greedily keep the ones that do not overlap an
already-kept candidate beyond `iou_threshold`.  (The early `if not
detections: return []` is the `foldl` base case.) -/
def nms (detections : List Detection) (iou_threshold : ℚ) : List Detection :=
  (sortByConfDesc detections).foldl (nmsStep iou_threshold) []

/-- The IoU threshold `FaceDetector.detect` passes to `_nms`
(detector.py line 122): `0.15`. -/
def nmsThreshold : ℚ := 15 / 100

/-- An identity label.  The code uses the strings `"ME"` and `"OTHER"`
(verify.py); the spec calls the former `SELF`. -/
inductive Label where
  | ME
  | OTHER
deriving DecidableEq, Repr

/-- `verify.FaceIdentity`: one verified face.  The `embedding` payload is
carried by the Python dataclass but never read by `PrivacyDecisionEngine.decide`,
so the model keeps it abstract as a list of rationals. -/
structure FaceIdentity where
  label : Label
  similarity_score : ℚ
  box : BoundingBox
  embedding : List ℚ
deriving DecidableEq

/-- The `reason` string composed by `PrivacyDecisionEngine.decide`, modelled
as an algebraic datatype carrying each format's numeric arguments instead of
the formatted text (decision.py lines 76, 122-125, 142-149). -/
inductive Reason where
  /-- the initial `reason = ""` (risky frame below the on-debounce) -/
  | empty
  /-- `"Risk: {other_face_count} OTHER face(s) detected (area: {risk_score})"` -/
  | riskVerified (other_face_count : ℤ) (risk_score : ℚ)
  /-- `"Risk: {total_faces} faces, {other_face_count} above threshold"` -/
  | riskUnverified (total_faces : ℕ) (other_face_count : ℤ)
  /-- `"Safe: {me_face_count} ME, {other_face_count} OTHER"` -/
  | safeVerified (me_face_count : ℕ) (other_face_count : ℤ)
  /-- `"Safe: {total_faces} faces detected"` -/
  | safeUnverified (total_faces : ℕ)
  /-- `"Holding blur ({remaining_time}s, {remaining_frames} frames)"` -/
  | holding (remaining_time : ℚ) (remaining_frames : ℤ)
deriving DecidableEq, Repr

/-- `utils.PrivacyDecision`: the record `decide` returns each tick. -/
structure PrivacyDecision where
  privacy_on : Bool
  reason : Reason
  risk_score : ℚ
  other_face_count : ℤ
deriving DecidableEq, Repr

/-- `decision.PrivacyDecisionEngine`: its constructor parameters together
with the mutable debounce state (decision.py lines 14-50).  Field defaults
are the `__init__` defaults.  Times (`safe_start_time`, history timestamps)
are rationals standing for `time.time()` seconds.  The
`last_other_positions` / `position_stability_frames` fields are never read
or written by `decide`/`reset` and are omitted. -/
structure PrivacyDecisionEngine where
  face_count_threshold : ℤ := 2
  area_ratio_threshold : ℚ := 2 / 100
  debounce_on_frames : ℕ := 2
  debounce_off_seconds : ℚ := 8 / 10
  debounce_off_frames : ℕ := 30
  use_identity_verification : Bool := false
  privacy_on : Bool := false
  risk_counter : ℕ := 0
  safe_frame_counter : ℕ := 0
  safe_start_time : Option ℚ := none
  decision_history : List (ℚ × PrivacyDecision) := []
deriving DecidableEq

/-- The risk computation of `decide` (decision.py lines 71-109), returning
`(other_face_count, risk_score, me_face_count, total_faces)`.  Each branch
folds over its faces in order, counting the ones whose
`area_ratio = (box.area() * frame_area) / frame_area` reaches
`area_ratio_threshold` and taking the running maximum of qualifying ratios.
With `frame_area = 0` the Python code raises `ZeroDivisionError`; the model
returns ratio `0` there, and every theorem about that quantity assumes a
positive frame area. -/
def riskFold (area_ratio_threshold frame_area : ℚ) (boxes : List BoundingBox)
    (init : ℤ × ℚ) : ℤ × ℚ :=
  boxes.foldl
    (fun acc box =>
      let area_ratio := box.area * frame_area / frame_area
      if area_ratio ≥ area_ratio_threshold then (acc.1 + 1, max acc.2 area_ratio)
      else acc)
    init

/-- `decide`'s risk computation proper (decision.py lines 71-109).  The
verified branch is taken exactly when `use_identity_verification` holds and
`identities is not None`; it folds over the `OTHER`-labelled faces (their
boxes), while the unverified branch folds over all detected boxes and then
assumes one visible face is the user. -/
def riskAssessment (e : PrivacyDecisionEngine) (detection_boxes : List BoundingBox)
    (frame_width frame_height : ℕ) (identities : Option (List FaceIdentity)) :
    ℤ × ℚ × ℕ × ℕ :=
  let frame_area : ℚ := (frame_width : ℚ) * (frame_height : ℚ)
  match identities, e.use_identity_verification with
  | some ids, true =>
      let other_faces := ids.filter (fun f => f.label = Label.OTHER)
      let counted := riskFold e.area_ratio_threshold frame_area
        (other_faces.map (fun f => f.box)) (0, 0)
      let me_face_count := (ids.filter (fun f => f.label = Label.ME)).length
      (counted.1, counted.2, me_face_count, ids.length)
  | _, _ =>
      let counted := riskFold e.area_ratio_threshold frame_area detection_boxes (0, 0)
      let other_face_count := max 0 (counted.1 - 1)
      (other_face_count, counted.2, if counted.1 > 0 then 1 else 0, detection_boxes.length)

/-- The list of area ratios (as computed by the code,
`box.area() * frame_area / frame_area`) of the boxes that pass the
watching heuristic `area_ratio >= area_ratio_threshold`, in input order.
Used to state what `riskFold` counts and maximises. -/
def qualRatios (area_ratio_threshold frame_area : ℚ) (boxes : List BoundingBox) :
    List ℚ :=
  (boxes.map (fun box => box.area * frame_area / frame_area)).filter
    (fun ρ => area_ratio_threshold ≤ ρ)

/-- The debounce state transition of `decide` (decision.py lines 111-149),
given the computed risk quantities and the current time `now` (every
`time.time()` call during one tick is modelled as the same instant).
Returns the updated engine (before the history append) and the reason. -/
def stepNext (e : PrivacyDecisionEngine) (other_face_count : ℤ)
    (risk_score : ℚ) (me_face_count : ℕ) (total_faces : ℕ) (now : ℚ) :
    PrivacyDecisionEngine × Reason :=
  let is_risky := other_face_count ≥ e.face_count_threshold
  if is_risky then
    let risk_counter := e.risk_counter + 1
    if risk_counter ≥ e.debounce_on_frames then
      ({ e with risk_counter := risk_counter, safe_frame_counter := 0,
                safe_start_time := none, privacy_on := true },
       if e.use_identity_verification then
         Reason.riskVerified other_face_count risk_score
       else
         Reason.riskUnverified total_faces other_face_count)
    else
      ({ e with risk_counter := risk_counter, safe_frame_counter := 0,
                safe_start_time := none }, Reason.empty)
  else
    let safe_frame_counter := e.safe_frame_counter + 1
    let safe_start_time := e.safe_start_time.getD now
    let time_safe := now - safe_start_time
    if time_safe ≥ e.debounce_off_seconds ∧ safe_frame_counter ≥ e.debounce_off_frames then
      ({ e with risk_counter := 0, safe_frame_counter := 0,
                safe_start_time := some safe_start_time, privacy_on := false },
       if e.use_identity_verification then
         Reason.safeVerified me_face_count other_face_count
       else
         Reason.safeUnverified total_faces)
    else
      ({ e with risk_counter := 0, safe_frame_counter := safe_frame_counter,
                safe_start_time := some safe_start_time },
       Reason.holding (max 0 (e.debounce_off_seconds - time_safe))
         (max 0 ((e.debounce_off_frames : ℤ) - (safe_frame_counter : ℤ))))

/-- The bounded history append of `decide` (decision.py lines 158-161):
append the new `(timestamp, decision)` pair and keep only the last 100
entries. -/
def appendHistory (e : PrivacyDecisionEngine) (now : ℚ) (decision : PrivacyDecision) :
    PrivacyDecisionEngine :=
  let hist := e.decision_history ++ [(now, decision)]
  let hist := if hist.length > 100 then hist.drop (hist.length - 100) else hist
  { e with decision_history := hist }

/-- Lines 111-163 of decision.py: the debounce transition, the
`PrivacyDecision` construction and the bounded history append. -/
def PrivacyDecisionEngine.step (e : PrivacyDecisionEngine) (other_face_count : ℤ)
    (risk_score : ℚ) (me_face_count : ℕ) (total_faces : ℕ) (now : ℚ) :
    PrivacyDecisionEngine × PrivacyDecision :=
  let next := stepNext e other_face_count risk_score me_face_count total_faces now
  let decision : PrivacyDecision :=
    { privacy_on := next.1.privacy_on, reason := next.2,
      risk_score := risk_score, other_face_count := other_face_count }
  (appendHistory next.1 now decision, decision)

/-- `PrivacyDecisionEngine.decide` (decision.py lines 52-163):
risk computation followed by the debounce transition and the bounded
history append. -/
def PrivacyDecisionEngine.decide (e : PrivacyDecisionEngine)
    (detection_boxes : List BoundingBox) (frame_width frame_height : ℕ)
    (identities : Option (List FaceIdentity)) (now : ℚ) :
    PrivacyDecisionEngine × PrivacyDecision :=
  let r := riskAssessment e detection_boxes frame_width frame_height identities
  e.step r.1 r.2.1 r.2.2.1 r.2.2.2 now

/-- `PrivacyDecisionEngine.reset` (decision.py lines 165-170). -/
def PrivacyDecisionEngine.reset (e : PrivacyDecisionEngine) : PrivacyDecisionEngine :=
  { e with privacy_on := false, risk_counter := 0, safe_frame_counter := 0,
           safe_start_time := none }

/-- The inputs of one evaluation tick. -/
structure TickInput where
  boxes : List BoundingBox
  frame_width : ℕ
  frame_height : ℕ
  identities : Option (List FaceIdentity)
  now : ℚ

/-- Run a sequence of `decide` calls, keeping the engine state. -/
def runTicks (e : PrivacyDecisionEngine) (ts : List TickInput) : PrivacyDecisionEngine :=
  ts.foldl
    (fun e t => (e.decide t.boxes t.frame_width t.frame_height t.identities t.now).1) e

/-- The full list of `(timestamp, decision)` pairs produced by a run of
`decide` calls, in production order (what the history would be were it
unbounded). -/
def allDecisions (e : PrivacyDecisionEngine) : List TickInput → List (ℚ × PrivacyDecision)
  | [] => []
  | t :: ts =>
      let r := e.decide t.boxes t.frame_width t.frame_height t.identities t.now
      (t.now, r.2) :: allDecisions r.1 ts

/-- `np.dot` on two equal-length float vectors: the sum of pairwise
products.  (`np.dot` raises on mismatched 1-d shapes; every modelled call
site passes equal lengths, and the recursion simply stops at the shorter
vector.) -/
noncomputable def dotp : List ℝ → List ℝ → ℝ
  | x :: xs, y :: ys => x * y + dotp xs ys
  | _, _ => 0

/-- Sum of squares of a vector, `np.dot(v, v)`. -/
noncomputable def sumSq (v : List ℝ) : ℝ := dotp v v

/-- `np.linalg.norm`: the L2 norm, square root of the sum of squares. -/
noncomputable def l2norm (v : List ℝ) : ℝ := Real.sqrt (sumSq v)

/-- The `1e-8` epsilon added to norms before dividing (embedder.py
lines 145, 184-185). -/
noncomputable def normEps : ℝ := 1 / 10 ^ 8

/-- `FaceEmbedder.similarity` (embedder.py lines 167-191): `None` or
empty inputs yield `0.0`; otherwise both vectors are divided by
`norm + 1e-8`, their dot product is mapped from [-1,1] to [0,1] via
`(s + 1) / 2`, and the result is clamped to [0,1] by
`max(0.0, min(1.0, ...))`.  The model computes in exact reals; theorems
about it are confined to facts that also hold under IEEE rounding (the
clamp range, symmetry, the exact value on the all-zero vector, and
concrete small-magnitude inputs where the `1e-8` survives rounding).  A
universal strict consequence of the `1e-8` would not transfer: on
large-magnitude float64 vectors or typical float32 norms the float
addition `norm + 1e-8` rounds back to `norm` and the epsilon is a no-op. -/
noncomputable def similarity : Option (List ℝ) → Option (List ℝ) → ℝ
  | none, _ => 0
  | _, none => 0
  | some embedding1, some embedding2 =>
      if embedding1.length = 0 ∨ embedding2.length = 0 then 0
      else
        let e1 := embedding1.map (fun x => x / (l2norm embedding1 + normEps))
        let e2 := embedding2.map (fun x => x / (l2norm embedding2 + normEps))
        let similarity_score := dotp e1 e2
        max 0 (min 1 ((similarity_score + 1) / 2))

/-- `FaceEmbedder.embedding_size` (embedder.py line 21). -/
def embedding_size : ℕ := 128

/-- A face crop: a `height × width` BGR image.  The modelled embedder code
paths read only its `size` (number of scalar entries), so pixel data is not
carried. -/
structure Image where
  height : ℕ
  width : ℕ
deriving DecidableEq, Repr

/-- `ndarray.size` of a `height × width × 3` BGR crop. -/
def Image.size (img : Image) : ℕ := img.height * img.width * 3

/-- The fallback `np.random.randn(self.embedding_size)` (embedder.py
line 150): the next 128 samples of the pseudo-random stream `rng`, taken
as they come — the code does not normalize them. -/
noncomputable def fallback_embedding (rng : ℕ → ℝ) : List ℝ :=
  (List.range embedding_size).map rng

/-- The `try` body of `FaceEmbedder._compute_feature_embedding`
(embedder.py lines 100-147).  After the resize and grayscale conversion,
line 109 evaluates `_64`, a name bound nowhere in the module, so Python
raises `NameError: name '_64' is not defined` before any HOG or color
feature is computed; no crop reaches the documented feature pipeline. -/
def feature_try_body (_face_crop : Image) : Except String (List ℝ) :=
  Except.error "NameError: name _64 is not defined"

/-- `FaceEmbedder._compute_feature_embedding` (embedder.py lines 95-150):
run the `try` body; on any exception return the pseudo-random fallback. -/
noncomputable def compute_feature_embedding (face_crop : Image) (rng : ℕ → ℝ) : List ℝ :=
  match feature_try_body face_crop with
  | Except.ok v => v
  | Except.error _ => fallback_embedding rng

/-- `FaceEmbedder.compute_embedding` (embedder.py lines 48-64) for an
embedder whose DNN strategy is unavailable (`use_dnn = False`, the state
reached when no model file exists): `None` or zero-size crops yield
`np.zeros(128)`, anything else goes to `_compute_feature_embedding`. -/
noncomputable def compute_embedding (face_crop : Option Image) (rng : ℕ → ℝ) : List ℝ :=
  match face_crop with
  | none => List.replicate embedding_size 0
  | some img =>
      if img.size = 0 then List.replicate embedding_size 0
      else compute_feature_embedding img rng

/-- `verify.FaceVerifier`: the loaded template (or `none`) and the
similarity threshold. -/
structure FaceVerifier where
  template_embedding : Option (List ℝ)
  similarity_threshold : ℝ

/-- `FaceVerifier.is_enabled` (verify.py lines 57-59):
`template_embedding is not None`. -/
def FaceVerifier.is_enabled (v : FaceVerifier) : Bool :=
  v.template_embedding.isSome

/-- `FaceVerifier.verify` (verify.py lines 61-79): with no template,
`("OTHER", 0.0)`; otherwise compare `similarity(embedding, template)`
against the threshold, inclusively. -/
noncomputable def FaceVerifier.verify (v : FaceVerifier) (embedding : Option (List ℝ)) :
    Label × ℝ :=
  match v.template_embedding with
  | none => (Label.OTHER, 0)
  | some t =>
      let s := similarity embedding (some t)
      if s ≥ v.similarity_threshold then (Label.ME, s) else (Label.OTHER, s)

/-! ## Detector suppression: lemmas and claim C3 -/

/-- IoU is symmetric in its two boxes. -/
theorem computeIou_comm (a b : BoundingBox) : computeIou a b = computeIou b a := by
  simp only [computeIou, max_comm a.x_min b.x_min, max_comm a.y_min b.y_min,
    min_comm a.x_max b.x_max, min_comm a.y_max b.y_max,
    add_comm ((a.x_max - a.x_min) * (a.y_max - a.y_min))
      ((b.x_max - b.x_min) * (b.y_max - b.y_min))]

/-- One greedy step preserves the pairwise bound: every pair of kept
detections, earlier paired with later, has IoU at most the threshold. -/
theorem nmsStep_pairwise {θ : ℚ} {kept : List Detection}
    (h : kept.Pairwise (fun a b => computeIou b.box a.box ≤ θ)) (cur : Detection) :
    (nmsStep θ kept cur).Pairwise (fun a b => computeIou b.box a.box ≤ θ) := by
  unfold nmsStep
  split
  · rename_i hall
    rw [List.pairwise_append]
    refine ⟨h, List.pairwise_singleton _ _, ?_⟩
    intro a ha b hb
    rw [List.mem_singleton] at hb
    have hone := List.all_eq_true.mp hall a ha
    have h2 : ¬ (computeIou cur.box a.box > θ) := by simpa using hone
    rw [hb]
    exact not_lt.mp h2
  · exact h

/-- Folding the greedy step over any candidate order preserves the bound. -/
theorem foldl_nmsStep_pairwise (θ : ℚ) (l : List Detection) (acc : List Detection)
    (h : acc.Pairwise (fun a b => computeIou b.box a.box ≤ θ)) :
    (l.foldl (nmsStep θ) acc).Pairwise (fun a b => computeIou b.box a.box ≤ θ) := by
  induction l generalizing acc with
  | nil => exact h
  | cons x xs ih => exact ih _ (nmsStep_pairwise h x)

/-- C3 (amended): for every input list of candidate detections, any two
distinct boxes retained by the detector's greedy suppression at threshold
0.15 have IoU at most 0.15 (the bound is inclusive, not strict: the greedy
loop discards a candidate only when its IoU against a kept one is strictly
greater than the threshold). -/
theorem nms_kept_iou_le (detections : List Detection)
    (i j : Fin (nms detections nmsThreshold).length) (hij : i ≠ j) :
    computeIou ((nms detections nmsThreshold).get i).box
      ((nms detections nmsThreshold).get j).box ≤ nmsThreshold := by
  have hp := foldl_nmsStep_pairwise nmsThreshold (sortByConfDesc detections) []
    List.Pairwise.nil
  rw [List.pairwise_iff_get] at hp
  rcases hij.lt_or_lt with hlt | hlt
  · rw [computeIou_comm]
    exact hp i j hlt
  · exact hp j i hlt

/-- C3 counterexample: with candidates `(0, 0, 1/2, 1/2)` at confidence
`7/8` and `(1/8, 1/4, 1, 3/8)` at confidence `3/4`, the greedy suppression
keeps both boxes, and their IoU is not strictly below the threshold: the
intersection is `3/64`, the union is `20/64`, so the IoU is exactly `3/20`,
equal to the threshold.  This input is chosen so that IEEE float64 agrees
with the exact model: every coordinate, extent, product and sum above is a
dyadic rational computed exactly in float64, and the one inexact operation —
the final division `(3/64) / (20/64)`, whose exact value is `0.15` — rounds
to the very double that the literal threshold `0.15` denotes, so the
program's `iou > iou_threshold` test is false and it, too, keeps both boxes
with an IoU equal to (hence not strictly below) its threshold.  So the
claim that any two retained boxes have IoU strictly below the threshold is
false. -/
theorem nms_kept_iou_strict_counterexample :
    ¬ ∀ (detections : List Detection) (i j : Fin (nms detections nmsThreshold).length),
        i ≠ j →
        computeIou ((nms detections nmsThreshold).get i).box
          ((nms detections nmsThreshold).get j).box < nmsThreshold := by
  intro hclaim
  have hlen : (nms [⟨⟨0, 0, 1/2, 1/2⟩, 7/8⟩, ⟨⟨1/8, 1/4, 1, 3/8⟩, 3/4⟩]
      nmsThreshold).length = 2 := by
    norm_num [nms, sortByConfDesc, insertByConf, nmsStep, computeIou, nmsThreshold]
  have h := hclaim [⟨⟨0, 0, 1/2, 1/2⟩, 7/8⟩, ⟨⟨1/8, 1/4, 1, 3/8⟩, 3/4⟩]
      ⟨0, by rw [hlen]; norm_num⟩ ⟨1, by rw [hlen]; norm_num⟩
      (by intro hh; exact absurd (congrArg Fin.val hh) (by norm_num))
  norm_num [nms, sortByConfDesc, insertByConf, nmsStep, computeIou, nmsThreshold] at h

/-- Witness for the amended C3 at the same concrete (dyadic,
float64-exact) pair of retained detections. -/
theorem nms_kept_iou_le_witness :
    computeIou
      ((nms [⟨⟨0, 0, 1/2, 1/2⟩, 7/8⟩, ⟨⟨1/8, 1/4, 1, 3/8⟩, 3/4⟩] nmsThreshold).get
        ⟨0, by norm_num [nms, sortByConfDesc, insertByConf, nmsStep, computeIou,
          nmsThreshold]⟩).box
      ((nms [⟨⟨0, 0, 1/2, 1/2⟩, 7/8⟩, ⟨⟨1/8, 1/4, 1, 3/8⟩, 3/4⟩] nmsThreshold).get
        ⟨1, by norm_num [nms, sortByConfDesc, insertByConf, nmsStep, computeIou,
          nmsThreshold]⟩).box ≤ nmsThreshold :=
  nms_kept_iou_le _ _ _ (by intro hh; exact absurd (congrArg Fin.val hh) (by norm_num))

/-! ## Decision engine: bounded history (C9) -/

/-- The debounce transition never touches the history field. -/
theorem stepNext_decision_history (e : PrivacyDecisionEngine) (o : ℤ) (r : ℚ)
    (m t : ℕ) (now : ℚ) :
    (stepNext e o r m t now).1.decision_history = e.decision_history := by
  unfold stepNext
  dsimp only
  split_ifs <;> rfl

/-- The bounded append always equals dropping all but the last 100 of the
appended list (when at most 100 entries needed dropping, the dropped count
is 0). -/
theorem appendHistory_decision_history (e : PrivacyDecisionEngine) (now : ℚ)
    (d : PrivacyDecision) :
    (appendHistory e now d).decision_history =
      (e.decision_history ++ [(now, d)]).drop ((e.decision_history.length + 1) - 100) := by
  unfold appendHistory
  dsimp only
  split_ifs with hgt
  · simp
  · rw [List.length_append] at hgt
    rw [Nat.sub_eq_zero_of_le (by simpa using hgt), List.drop_zero]

/-- One `decide` call maps the history to the last 100 entries of
`old history ++ [new pair]`. -/
theorem decide_decision_history (e : PrivacyDecisionEngine)
    (boxes : List BoundingBox) (w h : ℕ) (ids : Option (List FaceIdentity)) (now : ℚ) :
    (e.decide boxes w h ids now).1.decision_history =
      (e.decision_history ++ [(now, (e.decide boxes w h ids now).2)]).drop
        ((e.decision_history.length + 1) - 100) := by
  unfold PrivacyDecisionEngine.decide PrivacyDecisionEngine.step
  dsimp only
  rw [appendHistory_decision_history, stepNext_decision_history]

/-- `allDecisions` produces one pair per tick. -/
theorem allDecisions_length (ts : List TickInput) (e : PrivacyDecisionEngine) :
    (allDecisions e ts).length = ts.length := by
  induction ts generalizing e with
  | nil => rfl
  | cons t ts ih => simp [allDecisions, ih]

/-- Running `decide` calls from any engine whose history holds at most 100
entries leaves exactly the last 100 of `old history ++ produced pairs`. -/
theorem runTicks_decision_history (ts : List TickInput) (e : PrivacyDecisionEngine)
    (hlen : e.decision_history.length ≤ 100) :
    (runTicks e ts).decision_history =
      (e.decision_history ++ allDecisions e ts).drop
        ((e.decision_history.length + ts.length) - 100) := by
  induction ts generalizing e with
  | nil =>
      simp only [runTicks, List.foldl_nil, allDecisions, List.append_nil, List.length_nil,
        Nat.add_zero]
      rw [Nat.sub_eq_zero_of_le hlen, List.drop_zero]
  | cons t ts ih =>
      have hstep := decide_decision_history e t.boxes t.frame_width t.frame_height
        t.identities t.now
      set e' := (e.decide t.boxes t.frame_width t.frame_height t.identities t.now).1 with he'
      set d := (e.decide t.boxes t.frame_width t.frame_height t.identities t.now).2 with hd
      have hrun : runTicks e (t :: ts) = runTicks e' ts := by
        simp [runTicks]
      have hall : allDecisions e (t :: ts) = (t.now, d) :: allDecisions e' ts := by
        rw [allDecisions]
      have hlen' : e'.decision_history.length ≤ 100 := by
        rw [hstep, List.length_drop, List.length_append]
        simp only [List.length_cons, List.length_nil]
        omega
      have hklen : (e.decision_history.length + 1) - 100 ≤
          (e.decision_history ++ [(t.now, d)]).length := by
        rw [List.length_append]
        simp only [List.length_cons, List.length_nil]
        omega
      rw [hrun, hall, ih e' hlen', hstep, ← List.drop_append_of_le_length hklen,
        List.drop_drop, List.append_assoc, List.singleton_append]
      congr 1
      rw [List.length_drop, List.length_append]
      simp only [List.length_cons, List.length_nil]
      omega

/-- C9: for every sequence of `decide` calls on a freshly constructed
`PrivacyDecisionEngine`, the decision history never holds more than 100
entries, and it is exactly the suffix of most recent produced decisions,
in production order. -/
theorem decide_history_bounded (ts : List TickInput) :
    (runTicks {} ts).decision_history.length ≤ 100 ∧
    (runTicks {} ts).decision_history =
      (allDecisions {} ts).drop ((allDecisions {} ts).length - 100) := by
  have h := runTicks_decision_history ts {} (by simp)
  have hh : ({} : PrivacyDecisionEngine).decision_history = [] := rfl
  rw [hh, List.nil_append, List.length_nil, Nat.zero_add] at h
  refine ⟨?_, ?_⟩
  · rw [h, List.length_drop, allDecisions_length]
    omega
  · rw [h, allDecisions_length]

/-! ## Decision engine: the off-transition debounce (C1) -/

/-- The history append never changes `privacy_on`. -/
theorem appendHistory_privacy_on (e : PrivacyDecisionEngine) (now : ℚ)
    (d : PrivacyDecision) : (appendHistory e now d).privacy_on = e.privacy_on := rfl

/-- `step` leaves exactly the `privacy_on` computed by the debounce
transition. -/
theorem step_fst_privacy_on (e : PrivacyDecisionEngine) (o : ℤ) (r : ℚ) (m t : ℕ)
    (now : ℚ) :
    (e.step o r m t now).1.privacy_on = (stepNext e o r m t now).1.privacy_on := rfl

/-- On a safe tick, the debounce transition turns `privacy_on` off exactly
when both off-conditions hold, and otherwise holds its previous value. -/
theorem stepNext_privacy_on_safe (e : PrivacyDecisionEngine) (o : ℤ) (r : ℚ)
    (m t : ℕ) (now : ℚ) (hsafe : o < e.face_count_threshold) :
    (stepNext e o r m t now).1.privacy_on =
      (if now - e.safe_start_time.getD now ≥ e.debounce_off_seconds ∧
          e.safe_frame_counter + 1 ≥ e.debounce_off_frames then false
       else e.privacy_on) := by
  unfold stepNext
  dsimp only
  rw [if_neg (not_le.mpr hsafe)]
  split_ifs with hcond <;> rfl

/-- On a safe tick that does not satisfy both off-conditions, `decide`
holds the whole debounce state: `risk_counter` is cleared, the safe-frame
counter increments, the safe start time is kept (or set to `now` on the
first safe tick), and everything else but the history is unchanged. -/
theorem decide_safe_hold (e : PrivacyDecisionEngine) (b : List BoundingBox)
    (w h : ℕ) (ids : Option (List FaceIdentity)) (now : ℚ)
    (hsafe : (riskAssessment e b w h ids).1 < e.face_count_threshold)
    (hcond : ¬(now - e.safe_start_time.getD now ≥ e.debounce_off_seconds ∧
               e.safe_frame_counter + 1 ≥ e.debounce_off_frames)) :
    (e.decide b w h ids now).1 =
      { e with
        risk_counter := 0,
        safe_frame_counter := e.safe_frame_counter + 1,
        safe_start_time := some (e.safe_start_time.getD now),
        decision_history := (e.decide b w h ids now).1.decision_history } := by
  unfold PrivacyDecisionEngine.decide PrivacyDecisionEngine.step stepNext appendHistory
  dsimp only
  rw [if_neg (not_le.mpr hsafe), if_neg hcond]

/-- With no detected boxes and no identities, the tick is safe: the
unverified branch counts zero visible faces and `max(0, -1) = 0` other
faces (and the risk score is 0). -/
theorem riskAssessment_nil (e : PrivacyDecisionEngine) (w h : ℕ) :
    riskAssessment e [] w h none = (0, 0, 0, 0) := by
  unfold riskAssessment riskFold
  rfl

/-- A run of empty-frame ticks whose times all stay within
`debounce_off_seconds` of the recorded safe start never turns privacy off
(the elapsed-time condition fails at every tick). -/
theorem runTicks_privacy_on_of_time_short (times : List ℚ) (e : PrivacyDecisionEngine)
    (t0 : ℚ) (hon : e.privacy_on = true) (hstart : e.safe_start_time = some t0)
    (hthr : 0 < e.face_count_threshold)
    (htimes : ∀ now ∈ times, now - t0 < e.debounce_off_seconds) :
    (runTicks e (times.map (fun now => ⟨[], 100, 100, none, now⟩))).privacy_on = true := by
  induction times generalizing e with
  | nil => exact hon
  | cons now rest ih =>
      have hsafe : (riskAssessment e [] 100 100 none).1 < e.face_count_threshold := by
        rw [riskAssessment_nil]
        exact hthr
      have htime : now - e.safe_start_time.getD now < e.debounce_off_seconds := by
        rw [hstart]
        exact htimes now (List.mem_cons_self now rest)
      have hcond : ¬(now - e.safe_start_time.getD now ≥ e.debounce_off_seconds ∧
          e.safe_frame_counter + 1 ≥ e.debounce_off_frames) := by
        intro hc
        exact absurd hc.1 (not_le.mpr htime)
      have hstep := decide_safe_hold e [] 100 100 none now hsafe hcond
      have hrun : runTicks e ((now :: rest).map (fun x => ⟨[], 100, 100, none, x⟩)) =
          runTicks (e.decide [] 100 100 none now).1
            (rest.map (fun x => ⟨[], 100, 100, none, x⟩)) := by
        simp [runTicks]
      rw [hrun, hstep]
      exact ih _ hon (by simp [hstart]) hthr
        (fun x hx => by
          have := htimes x (List.mem_cons_of_mem now hx)
          simpa [hstart] using this)

/-- A run of empty-frame ticks too short to reach `debounce_off_frames`
consecutive safe frames never turns privacy off (the frame-count condition
fails at every tick). -/
theorem runTicks_privacy_on_of_few_frames (times : List ℚ) (e : PrivacyDecisionEngine)
    (hon : e.privacy_on = true) (hthr : 0 < e.face_count_threshold)
    (hframes : e.safe_frame_counter + times.length < e.debounce_off_frames) :
    (runTicks e (times.map (fun now => ⟨[], 100, 100, none, now⟩))).privacy_on = true := by
  induction times generalizing e with
  | nil => exact hon
  | cons now rest ih =>
      have hsafe : (riskAssessment e [] 100 100 none).1 < e.face_count_threshold := by
        rw [riskAssessment_nil]
        exact hthr
      have hcond : ¬(now - e.safe_start_time.getD now ≥ e.debounce_off_seconds ∧
          e.safe_frame_counter + 1 ≥ e.debounce_off_frames) := by
        intro hc
        have : e.safe_frame_counter + 1 < e.debounce_off_frames := by
          simp only [List.length_cons] at hframes
          omega
        exact absurd hc.2 (not_le.mpr this)
      have hstep := decide_safe_hold e [] 100 100 none now hsafe hcond
      have hrun : runTicks e ((now :: rest).map (fun x => ⟨[], 100, 100, none, x⟩)) =
          runTicks (e.decide [] 100 100 none now).1
            (rest.map (fun x => ⟨[], 100, 100, none, x⟩)) := by
        simp [runTicks]
      rw [hrun, hstep]
      refine ih _ hon hthr ?_
      simp only [List.length_cons] at hframes ⊢
      omega

/-- A run whose first empty-frame tick starts the safe window at `t0` and
whose remaining tick times all stay within `debounce_off_seconds` of `t0`
never turns privacy off. -/
theorem runTicks_privacy_on_of_first_and_time (t0 : ℚ) (rest : List ℚ)
    (e : PrivacyDecisionEngine) (hon : e.privacy_on = true)
    (hstart : e.safe_start_time = none) (hthr : 0 < e.face_count_threshold)
    (hpos : 0 < e.debounce_off_seconds)
    (hrest : ∀ now ∈ rest, now - t0 < e.debounce_off_seconds) :
    (runTicks e ((t0 :: rest).map (fun now => ⟨[], 100, 100, none, now⟩))).privacy_on =
      true := by
  have hsafe : (riskAssessment e [] 100 100 none).1 < e.face_count_threshold := by
    rw [riskAssessment_nil]
    exact hthr
  have hcond : ¬(t0 - e.safe_start_time.getD t0 ≥ e.debounce_off_seconds ∧
      e.safe_frame_counter + 1 ≥ e.debounce_off_frames) := by
    rw [hstart, Option.getD_none]
    intro hc
    have h0 := hc.1
    simp only [sub_self] at h0
    exact absurd (lt_of_lt_of_le hpos h0) (lt_irrefl 0)
  have hstep := decide_safe_hold e [] 100 100 none t0 hsafe hcond
  rw [List.map_cons]
  have hrun : runTicks e ((⟨[], 100, 100, none, t0⟩ : TickInput) ::
        rest.map (fun now => ⟨[], 100, 100, none, now⟩)) =
      runTicks (e.decide [] 100 100 none t0).1
        (rest.map (fun now => ⟨[], 100, 100, none, now⟩)) := by
    simp [runTicks]
  rw [hrun, hstep]
  refine runTicks_privacy_on_of_time_short rest _ t0 hon ?_ hthr ?_
  · simp [hstart]
  · intro now hnow
    exact hrest now hnow

/-- C1: on an engine with `privacy_on = true`, a safe tick (other-face
count below `face_count_threshold`) sets `privacy_on` to `false` iff both
the elapsed time since the first consecutive safe tick reaches
`debounce_off_seconds` and the incremented consecutive safe-frame counter
reaches `debounce_off_frames`; otherwise `privacy_on` keeps its previous
value.  With the construction defaults, 40 empty-frame ticks spaced 10 ms
apart do not turn it off, and 5 empty-frame ticks spaced 1 s apart do not
turn it off either. -/
theorem decide_off_requires_both :
    (∀ (e : PrivacyDecisionEngine) (boxes : List BoundingBox) (w h : ℕ)
        (ids : Option (List FaceIdentity)) (now : ℚ),
        e.privacy_on = true →
        (riskAssessment e boxes w h ids).1 < e.face_count_threshold →
        (((e.decide boxes w h ids now).1.privacy_on = false) ↔
          (now - e.safe_start_time.getD now ≥ e.debounce_off_seconds ∧
           e.safe_frame_counter + 1 ≥ e.debounce_off_frames))) ∧
    (runTicks { privacy_on := true }
        (((List.range 40).map (fun i : ℕ => (i : ℚ) / 100)).map
          (fun now => ⟨[], 100, 100, none, now⟩))).privacy_on = true ∧
    (runTicks { privacy_on := true }
        (((List.range 5).map (fun i : ℕ => (i : ℚ))).map
          (fun now => ⟨[], 100, 100, none, now⟩))).privacy_on = true := by
  refine ⟨?_, ?_, ?_⟩
  · intro e boxes w h ids now hon hsafe
    have h1 : (e.decide boxes w h ids now).1.privacy_on =
        (stepNext e (riskAssessment e boxes w h ids).1
          (riskAssessment e boxes w h ids).2.1
          (riskAssessment e boxes w h ids).2.2.1
          (riskAssessment e boxes w h ids).2.2.2 now).1.privacy_on := rfl
    rw [h1, stepNext_privacy_on_safe _ _ _ _ _ _ hsafe]
    split_ifs with hcond
    · simp [hcond]
    · simp [hon, hcond]
  · rw [show List.range 40 = 0 :: (List.range 39).map Nat.succ from
      List.range_succ_eq_map 39, List.map_cons]
    apply runTicks_privacy_on_of_first_and_time
    · rfl
    · rfl
    · norm_num
    · norm_num
    · intro now hnow
      simp only [List.mem_map, List.mem_range] at hnow
      obtain ⟨x, ⟨j, hj, rfl⟩, rfl⟩ := hnow
      have hj38 : (j : ℚ) ≤ 38 := by exact_mod_cast Nat.le_of_lt_succ hj
      show (((Nat.succ j : ℕ) : ℚ) / 100) - (((0 : ℕ) : ℚ) / 100) < (8 : ℚ) / 10
      push_cast
      linarith
  · apply runTicks_privacy_on_of_few_frames
    · rfl
    · norm_num
    · norm_num [List.length_map, List.length_range]

/-- Witness for C1's general off-transition clause: a concrete engine with
privacy on, a safe empty-frame tick at time 0, where neither off-condition
holds, so privacy stays on. -/
theorem decide_off_requires_both_witness :
    ((({ privacy_on := true } : PrivacyDecisionEngine).decide [] 100 100 none 0).1.privacy_on
        = false) ↔
      ((0 : ℚ) - ({ privacy_on := true } : PrivacyDecisionEngine).safe_start_time.getD 0 ≥
          ({ privacy_on := true } : PrivacyDecisionEngine).debounce_off_seconds ∧
        ({ privacy_on := true } : PrivacyDecisionEngine).safe_frame_counter + 1 ≥
          ({ privacy_on := true } : PrivacyDecisionEngine).debounce_off_frames) :=
  decide_off_requires_both.1 { privacy_on := true } [] 100 100 none 0 rfl
    (by rw [riskAssessment_nil]; norm_num)

/-! ## Decision engine: the on-transition debounce (C2) -/

/-- C2: with the construction defaults (`face_count_threshold = 2`,
`area_ratio_threshold = 0.02`, `debounce_on_frames = 2`,
`debounce_off_seconds = 0.8`, `debounce_off_frames = 30`), two consecutive
risky ticks — three detected boxes of area ratio 0.04 each, hence
`other_face_count = 2` — leave `privacy_on` false after the first `decide`
call and make it true exactly after the second. -/
theorem decide_on_after_second_risky_tick :
    (((({} : PrivacyDecisionEngine).decide
        [⟨0, 0, 1/5, 1/5⟩, ⟨2/5, 0, 3/5, 1/5⟩, ⟨0, 2/5, 1/5, 3/5⟩] 100 100 none 0).2.other_face_count
      = 2) ∧
    ((({} : PrivacyDecisionEngine).decide
        [⟨0, 0, 1/5, 1/5⟩, ⟨2/5, 0, 3/5, 1/5⟩, ⟨0, 2/5, 1/5, 3/5⟩] 100 100 none 0).1.privacy_on
      = false)) ∧
    (((({} : PrivacyDecisionEngine).decide
          [⟨0, 0, 1/5, 1/5⟩, ⟨2/5, 0, 3/5, 1/5⟩, ⟨0, 2/5, 1/5, 3/5⟩] 100 100 none 0).1.decide
        [⟨0, 0, 1/5, 1/5⟩, ⟨2/5, 0, 3/5, 1/5⟩, ⟨0, 2/5, 1/5, 3/5⟩] 100 100 none (1/100)).2.other_face_count
      = 2) ∧
    (((({} : PrivacyDecisionEngine).decide
          [⟨0, 0, 1/5, 1/5⟩, ⟨2/5, 0, 3/5, 1/5⟩, ⟨0, 2/5, 1/5, 3/5⟩] 100 100 none 0).1.decide
        [⟨0, 0, 1/5, 1/5⟩, ⟨2/5, 0, 3/5, 1/5⟩, ⟨0, 2/5, 1/5, 3/5⟩] 100 100 none (1/100)).1.privacy_on
      = true) := by
  norm_num [PrivacyDecisionEngine.decide, PrivacyDecisionEngine.step, stepNext,
    appendHistory, riskAssessment, riskFold, BoundingBox.area, BoundingBox.width,
    BoundingBox.height]

/-! ## Decision engine: unverified-mode risk computation (C8) -/

/-- A running maximum never drops below its seed. -/
theorem le_foldl_max (l : List ℚ) (a : ℚ) : a ≤ l.foldl max a := by
  induction l generalizing a with
  | nil => exact le_refl a
  | cons x xs ih => exact le_trans (le_max_left a x) (ih (max a x))

/-- A running maximum bounds every list element. -/
theorem foldl_max_le_of_mem (l : List ℚ) (a x : ℚ) (hx : x ∈ l) : x ≤ l.foldl max a := by
  induction l generalizing a with
  | nil => cases hx
  | cons y ys ih =>
      rcases List.mem_cons.mp hx with rfl | hmem
      · exact le_trans (le_max_right a x) (le_foldl_max ys (max a x))
      · exact ih (max a y) hmem

/-- A running maximum is either the seed or some list element. -/
theorem foldl_max_mem (l : List ℚ) (a : ℚ) : l.foldl max a = a ∨ l.foldl max a ∈ l := by
  induction l generalizing a with
  | nil => exact Or.inl rfl
  | cons x xs ih =>
      rcases ih (max a x) with heq | hmem
      · rcases max_choice a x with hax | hax
        · exact Or.inl (by rw [List.foldl_cons, heq, hax])
        · exact Or.inr (by rw [List.foldl_cons, heq, hax]; exact List.mem_cons_self x xs)
      · exact Or.inr (List.mem_cons_of_mem x hmem)

/-- Every qualifying ratio reaches the threshold. -/
theorem mem_qualRatios_le (θ F : ℚ) (boxes : List BoundingBox) (ρ : ℚ)
    (hρ : ρ ∈ qualRatios θ F boxes) : θ ≤ ρ := by
  unfold qualRatios at hρ
  have := List.of_mem_filter hρ
  exact of_decide_eq_true this

/-- The counting fold of `decide` counts exactly the qualifying boxes and
maximises exactly the qualifying ratios. -/
theorem riskFold_spec (θ F : ℚ) (boxes : List BoundingBox) (c : ℤ) (r : ℚ) :
    riskFold θ F boxes (c, r) =
      (c + ((qualRatios θ F boxes).length : ℤ), (qualRatios θ F boxes).foldl max r) := by
  induction boxes generalizing c r with
  | nil => simp [riskFold, qualRatios]
  | cons b bs ih =>
      by_cases hq : b.area * F / F ≥ θ
      · have h1 : riskFold θ F (b :: bs) (c, r) =
            riskFold θ F bs (c + 1, max r (b.area * F / F)) := by
          simp [riskFold, hq]
        have h2 : qualRatios θ F (b :: bs) =
            (b.area * F / F) :: qualRatios θ F bs := by
          simp [qualRatios, List.filter_cons, hq]
        rw [h1, ih, h2]
        simp only [List.length_cons, List.foldl_cons]
        congr 1
        push_cast
        ring
      · have h1 : riskFold θ F (b :: bs) (c, r) = riskFold θ F bs (c, r) := by
          simp [riskFold, hq]
        have h2 : qualRatios θ F (b :: bs) = qualRatios θ F bs := by
          simp [qualRatios, List.filter_cons, hq]
        rw [h1, ih, h2]

/-- Without identities, `decide`'s risk computation always takes the
unverified branch, whatever `use_identity_verification` is. -/
theorem riskAssessment_none (e : PrivacyDecisionEngine) (boxes : List BoundingBox)
    (w h : ℕ) :
    riskAssessment e boxes w h none =
      (max 0 ((riskFold e.area_ratio_threshold ((w : ℚ) * (h : ℚ)) boxes (0, 0)).1 - 1),
       (riskFold e.area_ratio_threshold ((w : ℚ) * (h : ℚ)) boxes (0, 0)).2,
       (if (riskFold e.area_ratio_threshold ((w : ℚ) * (h : ℚ)) boxes (0, 0)).1 > 0
        then 1 else 0),
       boxes.length) := by
  unfold riskAssessment
  cases e.use_identity_verification <;> rfl

/-- C8: in unverified mode (no identity list), letting `visible_count` be
the number of detected boxes whose code-computed area ratio reaches
`area_ratio_threshold`, the produced decision has
`other_face_count = max 0 (visible_count - 1)` and `risk_score` equal to
the running maximum of the qualifying ratios — an upper bound of all of
them, `0` when none qualifies, and one of them when some does.  (With a
positive frame area the code's ratio `box.area() * frame_area / frame_area`
is just the box's normalized area.) -/
theorem decide_unverified_risk (e : PrivacyDecisionEngine) (boxes : List BoundingBox)
    (w h : ℕ) (now : ℚ) (hF : (0 : ℚ) < (w : ℚ) * (h : ℚ))
    (hθ : 0 ≤ e.area_ratio_threshold) :
    (∀ b : BoundingBox, b.area * ((w : ℚ) * (h : ℚ)) / ((w : ℚ) * (h : ℚ)) = b.area) ∧
    (e.decide boxes w h none now).2.other_face_count =
      max 0 (((qualRatios e.area_ratio_threshold ((w : ℚ) * (h : ℚ)) boxes).length : ℤ) - 1) ∧
    (e.decide boxes w h none now).2.risk_score =
      (qualRatios e.area_ratio_threshold ((w : ℚ) * (h : ℚ)) boxes).foldl max 0 ∧
    (∀ ρ ∈ qualRatios e.area_ratio_threshold ((w : ℚ) * (h : ℚ)) boxes,
      ρ ≤ (e.decide boxes w h none now).2.risk_score) ∧
    (qualRatios e.area_ratio_threshold ((w : ℚ) * (h : ℚ)) boxes = [] →
      (e.decide boxes w h none now).2.risk_score = 0) ∧
    (qualRatios e.area_ratio_threshold ((w : ℚ) * (h : ℚ)) boxes ≠ [] →
      (e.decide boxes w h none now).2.risk_score ∈
        qualRatios e.area_ratio_threshold ((w : ℚ) * (h : ℚ)) boxes) := by
  have hother : (e.decide boxes w h none now).2.other_face_count =
      (riskAssessment e boxes w h none).1 := rfl
  have hrisk : (e.decide boxes w h none now).2.risk_score =
      (riskAssessment e boxes w h none).2.1 := rfl
  have hra := riskAssessment_none e boxes w h
  have hfold := riskFold_spec e.area_ratio_threshold ((w : ℚ) * (h : ℚ)) boxes 0 0
  refine ⟨?_, ?_, ?_, ?_, ?_, ?_⟩
  · intro b
    exact mul_div_cancel_right₀ b.area (ne_of_gt hF)
  · rw [hother, hra]
    simp only [hfold, zero_add]
  · rw [hrisk, hra]
    simp only [hfold]
  · intro ρ hρ
    rw [hrisk, hra]
    simp only [hfold]
    exact foldl_max_le_of_mem _ 0 ρ hρ
  · intro hnil
    rw [hrisk, hra]
    simp only [hfold, hnil, List.foldl_nil]
  · intro hne
    rw [hrisk, hra]
    simp only [hfold]
    rcases foldl_max_mem (qualRatios e.area_ratio_threshold ((w : ℚ) * (h : ℚ)) boxes) 0
      with heq | hmem
    · rcases List.exists_mem_of_ne_nil _ hne with ⟨ρ0, hρ0⟩
      have hθρ : 0 ≤ ρ0 := le_trans hθ (mem_qualRatios_le _ _ _ _ hρ0)
      have hub : ρ0 ≤ (qualRatios e.area_ratio_threshold ((w : ℚ) * (h : ℚ)) boxes).foldl
          max 0 := foldl_max_le_of_mem _ 0 ρ0 hρ0
      have : ρ0 = 0 := le_antisymm (heq ▸ hub) hθρ
      rw [heq, ← this]
      exact hρ0
    · exact hmem

/-- Witness for C8 at a concrete input: one qualifying box on a 100×100
frame. -/
theorem decide_unverified_risk_witness :
    (({} : PrivacyDecisionEngine).decide [⟨0, 0, 1/5, 1/5⟩] 100 100 none 0).2.other_face_count =
      max 0 (((qualRatios ({} : PrivacyDecisionEngine).area_ratio_threshold
        (((100 : ℕ) : ℚ) * ((100 : ℕ) : ℚ)) [⟨0, 0, 1/5, 1/5⟩]).length : ℤ) - 1) :=
  (decide_unverified_risk {} [⟨0, 0, 1/5, 1/5⟩] 100 100 0 (by norm_num) (by norm_num)).2.1

/-! ## Embedder similarity: algebraic lemmas -/

/-- `np.dot` is symmetric. -/
theorem dotp_comm (a b : List ℝ) : dotp a b = dotp b a := by
  induction a generalizing b with
  | nil => cases b <;> rfl
  | cons x xs ih =>
      cases b with
      | nil => rfl
      | cons y ys => simp only [dotp, ih, mul_comm]

/-- A sum of squares is nonnegative. -/
theorem sumSq_nonneg (v : List ℝ) : 0 ≤ sumSq v := by
  induction v with
  | nil => exact le_refl 0
  | cons x xs ih =>
      have : sumSq (x :: xs) = x * x + sumSq xs := rfl
      rw [this]
      nlinarith [mul_self_nonneg x]

/-- Negating a vector keeps its sum of squares. -/
theorem sumSq_map_neg (v : List ℝ) : sumSq (v.map (fun x => -x)) = sumSq v := by
  induction v with
  | nil => rfl
  | cons x xs ih =>
      have h1 : sumSq ((x :: xs).map (fun x => -x)) = -x * -x + sumSq (xs.map (fun x => -x)) :=
        rfl
      have h2 : sumSq (x :: xs) = x * x + sumSq xs := rfl
      rw [h1, h2, ih, neg_mul_neg]

/-- Negating a vector keeps its L2 norm. -/
theorem l2norm_map_neg (v : List ℝ) : l2norm (v.map (fun x => -x)) = l2norm v := by
  unfold l2norm
  rw [sumSq_map_neg]

/-- Dot product of pointwise-scaled vectors. -/
theorem dotp_map_div (a b : List ℝ) (c d : ℝ) :
    dotp (a.map (fun x => x / c)) (b.map (fun x => x / d)) = dotp a b / (c * d) := by
  induction a generalizing b with
  | nil => cases b <;> simp [dotp]
  | cons x xs ih =>
      cases b with
      | nil => simp [dotp]
      | cons y ys =>
          simp only [List.map_cons, dotp, ih, add_div, div_mul_div_comm]

/-- Dot product against a negated vector. -/
theorem dotp_map_neg_right (a b : List ℝ) :
    dotp a (b.map (fun x => -x)) = -dotp a b := by
  induction a generalizing b with
  | nil => cases b <;> simp [dotp]
  | cons x xs ih =>
      cases b with
      | nil => simp [dotp]
      | cons y ys => simp only [List.map_cons, dotp, ih, mul_neg, neg_add]

/-- Dot product with an all-zero left vector. -/
theorem dotp_replicate_zero_left (n : ℕ) (l : List ℝ) :
    dotp (List.replicate n 0) l = 0 := by
  induction n generalizing l with
  | zero => rfl
  | succ m ih =>
      cases l with
      | nil => rfl
      | cons y ys =>
          have : dotp (List.replicate (m + 1) 0) (y :: ys) =
              0 * y + dotp (List.replicate m 0) ys := rfl
          rw [this, ih, zero_mul, add_zero]

/-- Sum of squares of a constant vector. -/
theorem sumSq_replicate (n : ℕ) (x : ℝ) :
    sumSq (List.replicate n x) = n * (x * x) := by
  induction n with
  | zero => simp [sumSq, dotp]
  | succ m ih =>
      have : sumSq (List.replicate (m + 1) x) = x * x + sumSq (List.replicate m x) := rfl
      rw [this, ih]
      push_cast
      ring

/-- The epsilon-padded norm is positive. -/
theorem l2norm_add_eps_pos (v : List ℝ) : 0 < l2norm v + normEps := by
  have h1 : 0 ≤ l2norm v := Real.sqrt_nonneg _
  have h2 : (0 : ℝ) < normEps := by norm_num [normEps]
  linarith

/-- The sum of squares is strictly below the square of the epsilon-padded
norm: this is why the code's `similarity(e, e)` never reaches 1. -/
theorem sumSq_lt_padded_sq (v : List ℝ) :
    sumSq v < (l2norm v + normEps) * (l2norm v + normEps) := by
  have h0 : 0 ≤ sumSq v := sumSq_nonneg v
  have h1 : Real.sqrt (sumSq v) * Real.sqrt (sumSq v) = sumSq v := Real.mul_self_sqrt h0
  have h2 : 0 ≤ Real.sqrt (sumSq v) := Real.sqrt_nonneg _
  have h3 : (0 : ℝ) < normEps := by norm_num [normEps]
  unfold l2norm
  nlinarith

/-- `similarity` never returns a negative value. -/
theorem similarity_nonneg (a b : Option (List ℝ)) : 0 ≤ similarity a b := by
  cases a with
  | none => simp [similarity]
  | some la =>
      cases b with
      | none => simp [similarity]
      | some lb =>
          unfold similarity
          dsimp only
          split_ifs
          · exact le_refl (0 : ℝ)
          · exact le_max_left 0 _

/-- `similarity` never exceeds 1. -/
theorem similarity_le_one (a b : Option (List ℝ)) : similarity a b ≤ 1 := by
  cases a with
  | none => norm_num [similarity]
  | some la =>
      cases b with
      | none => norm_num [similarity]
      | some lb =>
          unfold similarity
          dsimp only
          split_ifs
          · norm_num
          · exact max_le (by norm_num) (min_le_left 1 _)

/-- `similarity` is symmetric. -/
theorem similarity_comm (a b : Option (List ℝ)) : similarity a b = similarity b a := by
  cases a with
  | none => cases b <;> rfl
  | some la =>
      cases b with
      | none => rfl
      | some lb =>
          unfold similarity
          by_cases h1 : la.length = 0 <;> by_cases h2 : lb.length = 0 <;>
            simp [h1, h2, dotp_comm]

/-- The epsilon in the defensive normalization keeps `similarity(e, e)`
strictly below 1 for every non-empty vector. -/
theorem similarity_self_lt_one (e : List ℝ) (hne : e ≠ []) :
    similarity (some e) (some e) < 1 := by
  have hlen : e.length ≠ 0 := fun h => hne (List.length_eq_zero.mp h)
  unfold similarity
  dsimp only
  rw [if_neg (by simp [hlen])]
  have hd : dotp (e.map (fun x => x / (l2norm e + normEps)))
      (e.map (fun x => x / (l2norm e + normEps))) =
      sumSq e / ((l2norm e + normEps) * (l2norm e + normEps)) := dotp_map_div e e _ _
  have hpos : 0 < (l2norm e + normEps) * (l2norm e + normEps) :=
    mul_pos (l2norm_add_eps_pos e) (l2norm_add_eps_pos e)
  have hlt : sumSq e / ((l2norm e + normEps) * (l2norm e + normEps)) < 1 :=
    (div_lt_one hpos).mpr (sumSq_lt_padded_sq e)
  rw [hd]
  refine max_lt (by norm_num) (lt_of_le_of_lt (min_le_right 1 _) ?_)
  linarith

/-- The epsilon in the defensive normalization keeps `similarity(e, -e)`
strictly above 0 for every non-empty vector. -/
theorem similarity_neg_pos (e : List ℝ) (hne : e ≠ []) :
    0 < similarity (some e) (some (e.map (fun x => -x))) := by
  have hlen : e.length ≠ 0 := fun h => hne (List.length_eq_zero.mp h)
  unfold similarity
  dsimp only
  rw [if_neg (by simp [hlen])]
  have hd : dotp (e.map (fun x => x / (l2norm e + normEps)))
      ((e.map (fun x => -x)).map (fun x => x / (l2norm (e.map (fun x => -x)) + normEps))) =
      dotp e (e.map (fun x => -x)) / ((l2norm e + normEps) * (l2norm e + normEps)) := by
    rw [dotp_map_div, l2norm_map_neg]
  have hneg : dotp e (e.map (fun x => -x)) = -sumSq e := dotp_map_neg_right e e
  have hpos : 0 < (l2norm e + normEps) * (l2norm e + normEps) :=
    mul_pos (l2norm_add_eps_pos e) (l2norm_add_eps_pos e)
  have hlt : sumSq e / ((l2norm e + normEps) * (l2norm e + normEps)) < 1 :=
    (div_lt_one hpos).mpr (sumSq_lt_padded_sq e)
  rw [hd, hneg]
  have hgt : -1 < -sumSq e / ((l2norm e + normEps) * (l2norm e + normEps)) := by
    rw [neg_div]
    linarith
  refine lt_of_lt_of_le (lt_min (by norm_num) ?_) (le_max_right 0 _)
  linarith

/-- C6 (amended): `similarity` always returns a value in [0, 1] and is
symmetric in its arguments; the two exact identities of the claim do not
hold for every non-zero vector: already at `e = [1]` the `1e-8` the code
adds to each norm before dividing leaves `similarity(e, e)` strictly below
1.0 and `similarity(e, -e)` strictly above 0.0.  (All three parts transfer
to the floating-point program: the clamp and the symmetric dot product are
exact-rounding-invariant, and at the small-magnitude input `[1]` the added
`1e-8` is not absorbed by rounding, float64 returning ≈ 0.999999990 and
≈ 1.0e-8.  No universal strict bound is claimed, because on
large-magnitude float64 vectors — norm ≥ 2^27, e.g. `[2^28]` — or typical
float32 norms the `1e-8` is absorbed and the program does return exactly
1.0 and 0.0.) -/
theorem similarity_props :
    (∀ a b : Option (List ℝ),
      0 ≤ similarity a b ∧ similarity a b ≤ 1 ∧ similarity a b = similarity b a) ∧
    similarity (some [(1 : ℝ)]) (some [(1 : ℝ)]) < 1 ∧
    0 < similarity (some [(1 : ℝ)]) (some [(-1 : ℝ)]) := by
  refine ⟨fun a b => ⟨similarity_nonneg a b, similarity_le_one a b, similarity_comm a b⟩,
    similarity_self_lt_one [(1 : ℝ)] (by simp), ?_⟩
  have h := similarity_neg_pos [(1 : ℝ)] (by simp)
  have hm : ([(1 : ℝ)].map (fun x => -x)) = [(-1 : ℝ)] := rfl
  rw [hm] at h
  exact h

/-- C6 counterexample: at the concrete non-zero vector `[1]`,
`similarity(e, e)` is not exactly 1.0 and `similarity(e, -e)` is not
exactly 0.0 (the float64 program returns ≈ 0.999999990 and ≈ 1.0e-8
there: the `1e-8` added to the norm 1.0 is well above half an ulp and
survives rounding). -/
theorem similarity_exact_counterexample :
    similarity (some [(1 : ℝ)]) (some [(1 : ℝ)]) ≠ 1 ∧
    similarity (some [(1 : ℝ)]) (some [(-1 : ℝ)]) ≠ 0 := by
  constructor
  · exact ne_of_lt (similarity_self_lt_one [(1 : ℝ)] (by simp))
  · have h := similarity_neg_pos [(1 : ℝ)] (by simp)
    have hm : ([(1 : ℝ)].map (fun x => -x)) = [(-1 : ℝ)] := rfl
    rw [hm] at h
    exact (ne_of_lt h).symm

/-! ## Verifier (C7) -/

/-- C7: with no template loaded, `verify` returns `(OTHER, 0.0)`; with a
template, it labels the face `ME` (the spec's `SELF`) exactly when the
similarity reaches the threshold — inclusively, so equality labels `ME` —
and returns the computed similarity either way. -/
theorem verify_spec (v : FaceVerifier) (embedding : Option (List ℝ)) :
    (v.is_enabled = false → v.verify embedding = (Label.OTHER, 0)) ∧
    (∀ t, v.template_embedding = some t →
      (((v.verify embedding).1 = Label.ME ↔
        similarity embedding (some t) ≥ v.similarity_threshold) ∧
      (v.verify embedding).2 = similarity embedding (some t))) := by
  constructor
  · intro hdis
    unfold FaceVerifier.verify
    cases hv : v.template_embedding with
    | none => rfl
    | some t =>
        rw [FaceVerifier.is_enabled, hv] at hdis
        simp at hdis
  · intro t ht
    unfold FaceVerifier.verify
    rw [ht]
    dsimp only
    constructor
    · split_ifs with hs
      · simp only [hs, iff_true]
      · simp [hs]
    · split_ifs <;> rfl

/-- Witness for C7: a disabled verifier returns `(OTHER, 0)`, and an
enabled one whose threshold equals the computed similarity labels the
boundary case `ME`. -/
theorem verify_spec_witness :
    (FaceVerifier.mk none (6/10)).verify (some [(1 : ℝ)]) = (Label.OTHER, 0) ∧
    ((FaceVerifier.mk (some [(1 : ℝ)])
        (similarity (some [(1 : ℝ)]) (some [(1 : ℝ)]))).verify (some [(1 : ℝ)])).1 =
      Label.ME :=
  ⟨(verify_spec (FaceVerifier.mk none (6/10)) (some [(1 : ℝ)])).1 rfl,
   ((verify_spec (FaceVerifier.mk (some [(1 : ℝ)])
        (similarity (some [(1 : ℝ)]) (some [(1 : ℝ)]))) (some [(1 : ℝ)])).2
      [(1 : ℝ)] rfl).1.mpr (le_refl _)⟩

/-! ## Embedder degenerate and failure paths (C4, C5, C10) -/

/-- C4: the documented feature path is dead code.  For every non-empty
face crop, the `try` body of `_compute_feature_embedding` raises
`NameError` (the unbound name `_64` at embedder.py line 109) before any
HOG or color feature is computed, so `compute_embedding` returns the
pseudo-random fallback instead of the documented L2-normalized HOG+color
descriptor. -/
theorem compute_embedding_feature_path_broken (img : Image) (rng : ℕ → ℝ)
    (hsz : img.size ≠ 0) :
    feature_try_body img = Except.error "NameError: name _64 is not defined" ∧
    compute_embedding (some img) rng = fallback_embedding rng := by
  refine ⟨rfl, ?_⟩
  unfold compute_embedding
  dsimp only
  rw [if_neg hsz]
  rfl

/-- Witness for C4 at a concrete 100×100 crop. -/
theorem compute_embedding_feature_path_broken_witness :
    feature_try_body ⟨100, 100⟩ = Except.error "NameError: name _64 is not defined" ∧
    compute_embedding (some ⟨100, 100⟩) (fun _ => 0) = fallback_embedding (fun _ => 0) :=
  compute_embedding_feature_path_broken ⟨100, 100⟩ (fun _ => 0) (by norm_num [Image.size])

/-- C5 (amended): for every face crop whose feature computation throws,
`compute_embedding` does not propagate the error and instead returns the
fallback pseudo-random vector of dimension 128 — taken from the random
stream as-is, without L2 normalization. -/
theorem compute_embedding_fallback_on_throw (img : Image) (rng : ℕ → ℝ)
    (hsz : img.size ≠ 0) (herr : ∃ msg, feature_try_body img = Except.error msg) :
    compute_embedding (some img) rng = fallback_embedding rng ∧
    (fallback_embedding rng).length = 128 := by
  obtain ⟨msg, hmsg⟩ := herr
  constructor
  · unfold compute_embedding
    dsimp only
    rw [if_neg hsz]
    unfold compute_feature_embedding
    rw [hmsg]
  · simp [fallback_embedding, embedding_size]

/-- C5 counterexample: with the pseudo-random stream constantly 2, the
fallback embedding returned for a non-empty crop has L2 norm `√512 ≠ 1`,
so it is not a unit vector. -/
theorem fallback_embedding_not_unit_counterexample :
    (compute_embedding (some ⟨100, 100⟩) (fun _ => 2)).length = 128 ∧
    l2norm (compute_embedding (some ⟨100, 100⟩) (fun _ => 2)) ≠ 1 := by
  have hfall : compute_embedding (some ⟨100, 100⟩) (fun _ => 2) =
      List.replicate 128 (2 : ℝ) := by
    unfold compute_embedding
    dsimp only
    rw [if_neg (by norm_num [Image.size])]
    unfold compute_feature_embedding feature_try_body fallback_embedding
    rw [List.map_const', List.length_range]
    rfl
  rw [hfall]
  constructor
  · simp
  · unfold l2norm
    rw [sumSq_replicate]
    intro h1
    have h512 : ((128 : ℕ) : ℝ) * ((2 : ℝ) * 2) = 512 := by norm_num
    rw [h512] at h1
    have := Real.sq_sqrt (by norm_num : (0 : ℝ) ≤ 512)
    rw [h1] at this
    norm_num at this

/-- Witness for the amended C5 at a concrete crop and stream. -/
theorem compute_embedding_fallback_on_throw_witness :
    compute_embedding (some ⟨100, 100⟩) (fun _ => 1) = fallback_embedding (fun _ => 1) ∧
    (fallback_embedding (fun _ : ℕ => (1 : ℝ))).length = 128 :=
  compute_embedding_fallback_on_throw ⟨100, 100⟩ (fun _ => 1)
    (by norm_num [Image.size]) ⟨"NameError: name _64 is not defined", rfl⟩

/-- C10: a `None` or zero-size crop makes `compute_embedding` return the
all-zero vector of length 128 without raising; that vector has L2 norm 0,
not 1, so it breaks the unit-norm convention, and `similarity` of the zero
vector against any 128-dimensional vector evaluates to 0.5 rather than
0. -/
theorem compute_embedding_empty_zero :
    (∀ rng : ℕ → ℝ, compute_embedding none rng = List.replicate 128 0) ∧
    (∀ (img : Image) (rng : ℕ → ℝ), img.size = 0 →
      compute_embedding (some img) rng = List.replicate 128 0) ∧
    l2norm (List.replicate 128 (0 : ℝ)) = 0 ∧
    l2norm (List.replicate 128 (0 : ℝ)) ≠ 1 ∧
    (∀ v : List ℝ, v.length = 128 →
      similarity (some (List.replicate 128 0)) (some v) = 1 / 2) := by
  have hnorm : l2norm (List.replicate 128 (0 : ℝ)) = 0 := by
    unfold l2norm
    rw [sumSq_replicate]
    norm_num
  refine ⟨fun rng => rfl, ?_, hnorm, by rw [hnorm]; norm_num, ?_⟩
  · intro img rng hsz
    unfold compute_embedding
    dsimp only
    rw [if_pos hsz]
    rfl
  · intro v hv
    unfold similarity
    dsimp only
    rw [if_neg (by simp [hv])]
    have hz : (List.replicate 128 (0 : ℝ)).map
        (fun x => x / (l2norm (List.replicate 128 (0 : ℝ)) + normEps)) =
        List.replicate 128 (0 : ℝ) := by
      rw [List.map_replicate, zero_div]
    rw [hz, dotp_replicate_zero_left]
    norm_num

/-- Witness for C10 at a concrete zero-size crop and a concrete
128-dimensional vector. -/
theorem compute_embedding_empty_zero_witness :
    compute_embedding (some ⟨0, 5⟩) (fun _ => 3) = List.replicate 128 0 ∧
    similarity (some (List.replicate 128 0)) (some (List.replicate 128 (2 : ℝ))) = 1 / 2 :=
  ⟨compute_embedding_empty_zero.2.1 ⟨0, 5⟩ (fun _ => 3) rfl,
   compute_embedding_empty_zero.2.2.2.2 (List.replicate 128 (2 : ℝ)) (by simp)⟩

end PrivacyScreen
